import Mathlib

/-
Verification development for the imgconv library (package imgconv, file
imgconv.go).  The Go code is shallowly embedded: byte streams are `List UInt8`
values, external collaborators (the mimetype detector, `exec.LookPath`, the
spawned subprocess, and the SVG parser of github.com/rustyoz/svg) are
parameters of the embedded functions, supplied as pure oracles.  Go `int` is
modelled as `Int` (the idealization is unbounded, so no input is lost; where
a Go library function's documented behavior depends on the 64-bit width —
strconv.Atoi's range clamp, float-to-int conversions — the 64-bit bounds are
modelled explicitly).  Go `float32` values are modelled as the exact rational
they denote, with every operation (int-to-float conversion, parsing, division,
multiplication, subtraction) followed by IEEE-754 binary32 rounding to nearest
with ties to even, including the subnormal scale and overflow to infinity
where the source can reach it.  A Go runtime panic (index out of range) is an
explicit outcome constructor, and a float-to-int conversion whose result the
Go specification leaves implementation-defined (non-finite or out-of-range
operand) is a distinguished outcome rather than a guessed value.
-/

set_option autoImplicit false

/-- Character class test matching the digits accepted by Go's strconv
    integer and float parsers. -/
def isDigit (c : Char) : Bool := '0' ≤ c && c ≤ '9'

/-- Value of a digit string, most significant digit first. -/
def natOfDigits (l : List Char) : Nat :=
  l.foldl (fun a c => a * 10 + (c.toNat - 48)) 0

/-- Parse a non-empty all-digit character list, `none` on any other input. -/
def parseDigitsNat (l : List Char) : Option Nat :=
  if l.isEmpty || !(l.all isDigit) then none else some (natOfDigits l)

/-- Embedding of Go `strconv.Atoi` (that is, `ParseInt(s, 10, 0)` with the
    platform's 64-bit int) as used in `getSvgRes`: optional sign then decimal
    digits, no underscores in an explicit base.  The Go call sites discard
    the error and keep the value: 0 on a syntax error, and on a range error
    the clamped value ParseInt documents — MaxInt64 for positive overflow,
    MinInt64 for negative overflow. -/
def atoi (s : String) : Int :=
  match s.data with
  | '+' :: l => match parseDigitsNat l with
                | some n => if (n : Int) ≤ 2 ^ 63 - 1 then (n : Int) else 2 ^ 63 - 1
                | none => 0
  | '-' :: l => match parseDigitsNat l with
                | some n => if (n : Int) ≤ 2 ^ 63 then -(n : Int) else -(2 ^ 63)
                | none => 0
  | l => match parseDigitsNat l with
         | some n => if (n : Int) ≤ 2 ^ 63 - 1 then (n : Int) else 2 ^ 63 - 1
         | none => 0

/-- Embedding of Go `strconv.Itoa` (and of the `strconv.Itoa` calls building
    the argument lists): decimal rendering of an integer, with a leading
    minus sign for negatives, which is exactly `toString` on `Int`. -/
def itoa (n : Int) : String := toString n

/-- Embedding of Go `strings.Split` on a one-character separator, working on
    the character list.  Like Go, splitting the empty string yields `[""]`
    and adjacent separators yield empty fields. -/
def splitOnChar (c : Char) : List Char → List (List Char)
  | [] => [[]]
  | x :: xs =>
    let r := splitOnChar c xs
    if x = c then [] :: r
    else
      match r with
      | [] => [[x]]
      | y :: ys => (x :: y) :: ys

/-- String-level wrapper for `splitOnChar`. -/
def splitOnCharS (c : Char) (s : String) : List String :=
  (splitOnChar c s.data).map fun l => String.mk l

/-- Embedding of the `strings.Split(v, " ")` call in `getSvgRes`. -/
def splitSpace (s : String) : List String := splitOnCharS ' ' s

/-- Remove the first occurrence of a character, as `strings.Replace(s, c, "", 1)`
    does in Go. -/
def removeFirstChar (c : Char) : List Char → List Char
  | [] => []
  | x :: xs => if x = c then xs else x :: removeFirstChar c xs

/-- Embedding of the `strings.Replace(m.Extension(), ".", "", 1)` call in
    `GetType`. -/
def replaceFirstDot (s : String) : String := String.mk (removeFirstChar '.' s.data)

/-- Round a rational to the nearest integer, ties to even — the rounding of
    IEEE-754 round-to-nearest mode used by every Go float32 operation. -/
def rne (q : ℚ) : Int :=
  if q - ⌊q⌋ < 1 / 2 then ⌊q⌋
  else if 1 / 2 < q - ⌊q⌋ then ⌊q⌋ + 1
  else if ⌊q⌋ % 2 = 0 then ⌊q⌋ else ⌊q⌋ + 1

/-- IEEE-754 binary32 rounding of an exact rational: round the significand to
    24 bits at the value's binary exponent, or at the fixed subnormal scale
    2^(-149) for magnitudes below the normal range; ties to even.  The
    exponent is unbounded above — callers that can overflow (parsing,
    subtraction) apply the 2^128 infinity cutoff on the result; conversions
    from Go's 64-bit ints and their quotients can never reach it. -/
def roundF32 (q : ℚ) : ℚ :=
  if q = 0 then 0
  else
    let e : Int := max (Int.log 2 |q| - 23) (-149)
    (if q < 0 then -1 else 1) * (rne (|q| / 2 ^ e) : ℚ) * 2 ^ e

/-- Value of a Go float32 as the Go code observes it: an exactly-represented
    finite rational, an infinity (produced by overflow in parsing or
    arithmetic, or a parsed "Inf"), or NaN. -/
inductive GoF32 where
  | fin (q : ℚ) : GoF32
  | pinf : GoF32
  | ninf : GoF32
  | nan : GoF32
  deriving DecidableEq

/-- Negation of a float32 value (used for a parsed leading minus sign). -/
def negF32 : GoF32 → GoF32
  | GoF32.fin q => GoF32.fin (-q)
  | GoF32.pinf => GoF32.ninf
  | GoF32.ninf => GoF32.pinf
  | GoF32.nan => GoF32.nan

/-- Overflow cutoff after rounding: a rounded magnitude of 2^128 or more
    becomes the corresponding infinity (IEEE-754 overflow rule; the largest
    finite float32 is 2^128 - 2^104, and the unbounded rounding used above
    produces either that or 2^128). -/
def clampF32 (r : ℚ) : GoF32 :=
  if (2 : ℚ) ^ (128 : ℕ) ≤ r then GoF32.pinf
  else if r ≤ -((2 : ℚ) ^ (128 : ℕ)) then GoF32.ninf
  else GoF32.fin r

/-- Decimal digit value of a character. -/
def decDigit (c : Char) : Option Nat :=
  if '0' ≤ c ∧ c ≤ '9' then some (c.toNat - 48) else none

/-- Hexadecimal digit value of a character (both cases). -/
def hexDigit (c : Char) : Option Nat :=
  if '0' ≤ c ∧ c ≤ '9' then some (c.toNat - 48)
  else if 'a' ≤ c ∧ c ≤ 'f' then some (c.toNat - 87)
  else if 'A' ≤ c ∧ c ≤ 'F' then some (c.toNat - 55)
  else none

/-- Characters a digit run may contain: digits of the base, or the underscore
    Go's literal grammar permits between digits. -/
def isDigitU (dval : Char → Option Nat) (c : Char) : Bool :=
  (dval c).isSome || c == '_'

/-- Walk a digit run remembering the previous character: no trailing
    underscore and no two adjacent underscores. -/
def undOkCore : Char → List Char → Bool
  | p, [] => p != '_'
  | p, c :: rest => !(p == '_' && c == '_') && undOkCore c rest

/-- Go's underscore rule restricted to one digit run: non-empty, and every
    underscore strictly between two digits. -/
def undOk : List Char → Bool
  | [] => false
  | c :: rest => c != '_' && undOkCore c rest

/-- Value and digit count of a validated run, underscores skipped. -/
def valOf (dval : Char → Option Nat) (b : Nat) (l : List Char) : Nat × Nat :=
  l.foldl
    (fun p c =>
      match dval c with
      | some v => (p.1 * b + v, p.2 + 1)
      | none => p)
    (0, 0)

/-- Mantissa of a Go float literal in base `b`: a digit run, optionally
    followed by a point and a second run, at least one digit in total.
    Returns the mantissa scaled to an integer, the number of fractional
    digits, and the unconsumed remainder; `none` is a syntax error. -/
def parseMant (dval : Char → Option Nat) (b : Nat) (l : List Char) :
    Option (Nat × Nat × List Char) :=
  let ip := l.takeWhile (isDigitU dval)
  let rest := l.dropWhile (isDigitU dval)
  match rest with
  | '.' :: rest2 =>
    let fp := rest2.takeWhile (isDigitU dval)
    let rest3 := rest2.dropWhile (isDigitU dval)
    if (ip.isEmpty || undOk ip) && (fp.isEmpty || undOk fp)
        && !(ip.isEmpty && fp.isEmpty) then
      some ((valOf dval b ip).1 * b ^ (valOf dval b fp).2 + (valOf dval b fp).1,
        (valOf dval b fp).2, rest3)
    else none
  | _ => if undOk ip then some ((valOf dval b ip).1, 0, rest) else none

/-- Signed decimal digit run of an exponent part. -/
def parseExpDigits (l : List Char) : Option Int :=
  match l with
  | '+' :: ds => if undOk ds then some ((valOf decDigit 10 ds).1 : Int) else none
  | '-' :: ds => if undOk ds then some (-((valOf decDigit 10 ds).1 : Int)) else none
  | ds => if undOk ds then some ((valOf decDigit 10 ds).1 : Int) else none

/-- Optional `e`/`E` exponent closing a decimal literal. -/
def parseDecTail (rest : List Char) : Option Int :=
  match rest with
  | [] => some 0
  | c :: ds => if c == 'e' || c == 'E' then parseExpDigits ds else none

/-- Mandatory `p`/`P` exponent closing a hexadecimal literal. -/
def parseHexTail (rest : List Char) : Option Int :=
  match rest with
  | [] => none
  | c :: ds => if c == 'p' || c == 'P' then parseExpDigits ds else none

/-- Exact value of an unsigned decimal Go float literal. -/
def decimalParse (l : List Char) : Option ℚ :=
  match parseMant decDigit 10 l with
  | some (n, fc, rest) =>
    match parseDecTail rest with
    | some ex => some ((n : ℚ) / 10 ^ fc * 10 ^ ex)
    | none => none
  | none => none

/-- Exact value of an unsigned Go float literal: a hex literal `0x`/`0X`
    (mantissa in hex, one underscore permitted right after the prefix,
    mandatory binary `p` exponent) or a decimal one. -/
def parseFiniteVal (l : List Char) : Option ℚ :=
  match l with
  | '0' :: x :: rest =>
    if x == 'x' || x == 'X' then
      let rest2 :=
        match rest with
        | '_' :: c :: r3 => if (hexDigit c).isSome then c :: r3 else '_' :: c :: r3
        | r => r
      match parseMant hexDigit 16 rest2 with
      | some (n, fc, rest3) =>
        match parseHexTail rest3 with
        | some ex => some ((n : ℚ) / 16 ^ fc * 2 ^ ex)
        | none => none
      | none => none
    else decimalParse ('0' :: x :: rest)
  | l => decimalParse l

/-- Case normalization for the special spellings. -/
def toLowerList (l : List Char) : List Char := l.map Char.toLower

/-- Unsigned body of `strconv.ParseFloat(s, 32)`: the case-insensitive
    special spellings "inf"/"infinity" (and "nan" only when no sign
    preceded, as in Go's special-value scanner), else a finite literal
    rounded to float32 with the overflow cutoff.  A syntax error yields 0,
    because the Go call sites discard the returned error and keep the value
    — which on a range error is the documented ±Inf or rounded result. -/
def parseF32Signed (l : List Char) (allowNan : Bool) : GoF32 :=
  if toLowerList l = ['i', 'n', 'f'] ∨
      toLowerList l = ['i', 'n', 'f', 'i', 'n', 'i', 't', 'y'] then GoF32.pinf
  else if allowNan ∧ toLowerList l = ['n', 'a', 'n'] then GoF32.nan
  else
    match parseFiniteVal l with
    | some q => clampF32 (roundF32 q)
    | none => GoF32.fin 0

/-- Embedding of the `strconv.ParseFloat(res[i], 32)` calls in `getSvgRes`,
    error discarded as at the Go call sites. -/
def parseFloat32 (s : String) : GoF32 :=
  match s.data with
  | '+' :: l => parseF32Signed l false
  | '-' :: l => negF32 (parseF32Signed l false)
  | l => parseF32Signed l true

/-- Float32 subtraction as in `float32(x2) - float32(x1)`: exact difference
    of finite operands rounded to float32 with overflow to infinity; the
    IEEE-754 rules for infinite and NaN operands. -/
def f32sub : GoF32 → GoF32 → GoF32
  | GoF32.fin a, GoF32.fin b => clampF32 (roundF32 (a - b))
  | GoF32.pinf, GoF32.fin _ => GoF32.pinf
  | GoF32.fin _, GoF32.pinf => GoF32.ninf
  | GoF32.ninf, GoF32.fin _ => GoF32.ninf
  | GoF32.fin _, GoF32.ninf => GoF32.pinf
  | GoF32.pinf, GoF32.ninf => GoF32.pinf
  | GoF32.ninf, GoF32.pinf => GoF32.ninf
  | GoF32.pinf, GoF32.pinf => GoF32.nan
  | GoF32.ninf, GoF32.ninf => GoF32.nan
  | GoF32.nan, _ => GoF32.nan
  | _, GoF32.nan => GoF32.nan

/-- Go's `int(x)` conversion from a float truncates toward zero: floor for
    non-negative values, ceiling for negative ones. -/
def truncF (q : ℚ) : Int := if 0 ≤ q then ⌊q⌋ else ⌈q⌉

/-- Go's `int(x)` conversion from a float32, on the library's 64-bit
    platforms: truncation toward zero when the operand is finite and the
    truncated value fits a 64-bit int; in every other case (non-finite
    operand, or a value out of range) the Go specification leaves the result
    implementation-defined, which the model records as `none` rather than
    guessing a platform's value. -/
def f32ToInt : GoF32 → Option Int
  | GoF32.fin q =>
    if -(2 ^ 63) ≤ truncF q ∧ truncF q ≤ 2 ^ 63 - 1 then some (truncF q) else none
  | _ => none

/-- Embedding of the `contains` helper at the bottom of imgconv.go. -/
def contains (slice : List String) (str : String) : Bool :=
  slice.any fun i => i == str

/-- Result of the external mimetype detector (`mime.DetectReader` of
    github.com/gabriel-vasile/mimetype), supplied to the embedding as an
    oracle: how many bytes it consumed from the stream it was handed, the
    MIME string, the extension (with leading dot), and its error, if any.
    A deterministic detector is a pure function of the stream contents. -/
structure MimeResult where
  consumed : Nat
  mime : String
  ext : String
  err : Option String

/-- Outcome of running the external conversion subprocess, supplied as an
    oracle taking the resolved program path, the argument list, and the bytes
    fed to its standard input.  `exitOk` models `cmd.Output()` returning a nil
    error (the subprocess started and exited with status zero); `stdout` is
    the captured standard output and `stderr` the text captured into the
    `bytes.Buffer` wired to `cmd.Stderr`. -/
structure ExecResult where
  exitOk : Bool
  stdout : List UInt8
  stderr : String

/-- Error message built in `GetType` when the detected top-level media
    category is not "image". -/
def magicMsg : String := "Data magic wasn't detected as an image format"

/-- Embedding of `GetType`: run the detector, propagate its error, reject a
    non-"image" top-level category, and otherwise return the extension with
    its leading dot removed.  Returns the pair (format tag, error), matching
    the Go signature. -/
def GetType (detect : List UInt8 → MimeResult) (data : List UInt8) :
    String × Option String :=
  let m := detect data
  match m.err with
  | some e => ("", some e)
  | none =>
    if (splitOnCharS '/' m.mime).headD "" ≠ "image" then ("", some magicMsg)
    else (replaceFirstDot m.ext, none)

/-- The fixed, hand-ordered preference list of external programs in `getCmd`. -/
def pref : List String := ["rsvg-convert", "inkscape", "convert"]

/-- The `res` string built in `getCmd`: `strconv.Itoa(w)+"x"+strconv.Itoa(h)`. -/
def resStr (w h : Int) : String := itoa w ++ "x" ++ itoa h

/-- The per-program argument lists of `getCmd` (the `progs` map), including
    the two conditional adjustments the Go code applies after building the
    map: the width/height flags appended for inkscape when both requested
    dimensions are positive, and the `-density 3072` pair prepended for
    convert when the input format is "svg" and both dimensions are positive.
    An unknown program name yields `nil`, as a missing Go map key would. -/
def progs (formatIn formatOut : String) (w h : Int) (prog : String) : List String :=
  if prog = "convert" then
    (if formatIn = "svg" ∧ 0 < w ∧ 0 < h then ["-density", "3072"] else []) ++
    ["-background", "none", "-resize", resStr w h, "-", formatOut ++ ":-"]
  else if prog = "rsvg-convert" then
    ["-w", itoa w, "-h", itoa h, "-f", formatOut]
  else if prog = "inkscape" then
    ["-p", "--export-type=" ++ formatOut, "--export-filename", "-"] ++
    (if 0 < w ∧ 0 < h then ["-w", itoa w, "-h", itoa h] else [])
  else []

/-- The `fmtIn` map of `getCmd`: formats each program accepts as input. -/
def fmtIn (prog : String) : List String :=
  if prog = "convert" then
    ["svg", "png", "xpm", "jxl", "jp2", "jpf",
     "jpg", "gif", "webp", "bmp", "ico", "bpg",
     "dwg", "icns", "heic", "heif", "hdr", "xcf",
     "pat", "gbr"]
  else if prog = "rsvg-convert" then ["svg"]
  else if prog = "inkscape" then ["svg"]
  else []

/-- The `fmtOut` map of `getCmd`: formats each program can produce. -/
def fmtOut (prog : String) : List String :=
  if prog = "convert" then
    ["png", "xpm", "jxl", "jp2", "jpf", "gbr",
     "jpg", "gif", "webp", "bmp", "ico", "bpg",
     "dwg", "icns", "heic", "heif", "hdr", "xcf",
     "pat"]
  else if prog = "rsvg-convert" then
    ["png", "pdf", "ps", "eps", "svg", "xml"]
  else if prog = "inkscape" then
    ["png", "pdf", "ps", "eps", "svg"]
  else []

/-- Error message built by `getCmd` when no program matches. -/
def noToolMsg (formatIn formatOut : String) : String :=
  "Failed to find a suitable image conversion program on " ++
  "this machine to convert " ++ formatIn ++ " to " ++ formatOut

/-- The selection loop of `getCmd` over the preference list: for each
    candidate, `exec.LookPath` (the `lookPath` oracle) must resolve it and
    both capability tables must contain the requested formats; the first
    candidate passing all three checks is returned with its resolved path and
    argument list. -/
def getCmdLoop (lookPath : String → Option String) (formatIn formatOut : String)
    (w h : Int) : List String → Except String (String × List String)
  | [] => Except.error (noToolMsg formatIn formatOut)
  | i :: rest =>
    match lookPath i with
    | some cmd =>
      if contains (fmtIn i) formatIn && contains (fmtOut i) formatOut then
        Except.ok (cmd, progs formatIn formatOut w h i)
      else getCmdLoop lookPath formatIn formatOut w h rest
    | none => getCmdLoop lookPath formatIn formatOut w h rest

/-- Embedding of `getCmd`. -/
def getCmd (lookPath : String → Option String) (formatIn formatOut : String)
    (w h : Int) : Except String (String × List String) :=
  getCmdLoop lookPath formatIn formatOut w h pref

/-- The three checks of the selection loop bundled as the Go loop evaluates
    them: path resolution succeeds, the input format is in the candidate's
    input table, the output format is in its output table. -/
def toolOk (lookPath : String → Option String) (formatIn formatOut i : String) : Bool :=
  (lookPath i).isSome && (contains (fmtIn i) formatIn && contains (fmtOut i) formatOut)

/-- Stream duplication in `Convert`: `tee := io.TeeReader(data, buf)` copies
    every byte the sniffer reads into `buf`, and `n := io.MultiReader(buf, data)`
    then replays `buf` before the unread remainder of `data`.  After the
    sniffer has consumed `k` bytes, the bytes `n` delivers are
    `data.take k ++ data.drop k`. -/
def teeReconstruct (data : List UInt8) (k : Nat) : List UInt8 :=
  data.take k ++ data.drop k

/-- Error message of the dimensions guard at the top of `Convert`. -/
def invalidResMsg : String :=
  "Invalid resolution; must either be -1 (native resolution) or above 0"

/-- Embedding of `Convert`.  The guard mirrors
    `w == 0 || h == 0 || w < -1 || h < -1`; on its failure the untouched
    input is returned with the invalid-resolution error.  Otherwise the
    stream is teed, the sniffer runs on one copy, a tool is selected, and the
    subprocess oracle is run on the reconstructed stream; a failed subprocess
    (`exitOk = false`, i.e. `cmd.Output()` returned an error) replaces the
    error with the captured stderr text, and the subprocess's stdout is
    returned as the result stream in either case.  (The `os.Unsetenv` call
    and the goroutine feeding stdin are environment plumbing with no
    data-flow content and are absorbed into the oracle.) -/
def Convert (detect : List UInt8 → MimeResult) (lookPath : String → Option String)
    (exec : String → List String → List UInt8 → ExecResult)
    (data : List UInt8) (w h : Int) (format : String) :
    List UInt8 × Option String :=
  if w = 0 ∨ h = 0 ∨ w < -1 ∨ h < -1 then
    (data, some invalidResMsg)
  else
    let n := teeReconstruct data (detect data).consumed
    let g := GetType detect data
    match g.2 with
    | some e => (n, some e)
    | none =>
      match getCmd lookPath g.1 format w h with
      | Except.error e => (n, some e)
      | Except.ok ca =>
        let r := exec ca.1 ca.2 n
        (r.stdout, if r.exitOk then none else some r.stderr)

/-- Embedding of `scaleWithAspect`, float32 step by float32 step: each int
    is converted to float32 (rounded), each division and multiplication
    rounds its exact result, the branch compares the two rounded ratios, and
    `int(...)` truncates toward zero.  Division by zero (height or width
    zero), which in Go would produce an infinity, is never reached from the
    library (see the positivity theorem below) and yields 0 here; the
    overflow-to-infinity cutoff is omitted because no conversion, quotient or
    scaled product of Go's 64-bit ints can reach the float32 overflow
    threshold (magnitudes stay below 2^127). -/
def scaleWithAspect (width height maxRes : Int) : Int × Int :=
  let fw : ℚ := roundF32 (width : ℚ)
  let fh : ℚ := roundF32 (height : ℚ)
  let fm : ℚ := roundF32 (maxRes : ℚ)
  let wr : ℚ := roundF32 (fw / fh)
  let hr : ℚ := roundF32 (fh / fw)
  if wr < hr then (truncF (roundF32 (fm * wr)), maxRes)
  else (maxRes, truncF (roundF32 (fm * hr)))

/-- The fields of the parsed SVG document that `getSvgRes` reads, as the
    external parser (github.com/rustyoz/svg) exposes them: the declared
    width and height attribute strings and the raw viewBox attribute
    string. -/
structure SvgDoc where
  Width : String
  Height : String
  ViewBox : String
  deriving DecidableEq

/-- Outcome of `getSvgRes`.  `crash` models a Go runtime abort from an
    out-of-range slice index; `err` carries the message of a returned error
    (the accompanying (-1, -1) placeholder values of the Go return are
    dropped, no caller reads them); `ok` carries the computed dimensions;
    `undef` marks a run whose dimensions pass through a float-to-int
    conversion the Go specification leaves implementation-defined (operand
    non-finite or out of 64-bit range), so no concrete result is asserted. -/
inductive SvgResOut where
  | crash : SvgResOut
  | err (msg : String) : SvgResOut
  | ok (w h : Int) : SvgResOut
  | undef : SvgResOut
  deriving DecidableEq

/-- Error message of the final size check in `getSvgRes`. -/
def svgSizeMsg : String := "Failed to get size information from image"

/-- Width the viewBox fallback of `getSvgRes` computes:
    `int(float32(x2) - float32(x1))` with `x1 = ParseFloat(res[0], 32)` and
    `x2 = ParseFloat(res[2], 32)`; `none` when the conversion to int is
    implementation-defined. -/
def viewBoxW (v : String) : Option Int :=
  f32ToInt (f32sub (parseFloat32 ((splitSpace v).getD 2 ""))
    (parseFloat32 ((splitSpace v).getD 0 "")))

/-- Height the viewBox fallback of `getSvgRes` computes:
    `int(float32(y2) - float32(y1))` with `y1 = ParseFloat(res[1], 32)` and
    `y2 = ParseFloat(res[3], 32)`; `none` when the conversion to int is
    implementation-defined. -/
def viewBoxH (v : String) : Option Int :=
  f32ToInt (f32sub (parseFloat32 ((splitSpace v).getD 3 ""))
    (parseFloat32 ((splitSpace v).getD 1 "")))

/-- The shared final return of `getSvgRes`: the computed pair when both
    dimensions are positive, the size-information error otherwise. -/
def svgFinal (w h : Int) : SvgResOut :=
  if 0 < w ∧ 0 < h then SvgResOut.ok w h else SvgResOut.err svgSizeMsg

/-- Embedding of `getSvgRes`, as a function of the external parser's result.
    A parse failure is returned as is.  Otherwise the declared width/height
    are read with `Atoi`; if either is below 1 the viewBox fallback runs,
    which in Go indexes `res[0]`..`res[3]` of the space-split attribute and
    therefore panics (out-of-range index) whenever the split has fewer than
    four fields — `SvgResOut.crash` records exactly that. -/
def getSvgRes (parsed : Except String SvgDoc) : SvgResOut :=
  match parsed with
  | Except.error e => SvgResOut.err e
  | Except.ok d =>
    let w := atoi d.Width
    let h := atoi d.Height
    if w < 1 ∨ h < 1 then
      if 4 ≤ (splitSpace d.ViewBox).length then
        match viewBoxW d.ViewBox, viewBoxH d.ViewBox with
        | some w2, some h2 => svgFinal w2 h2
        | _, _ => SvgResOut.undef
      else SvgResOut.crash
    else svgFinal w h

/-- Embedding of `ConvertWithAspect`.  The three-way tee of the source makes
    both the sniffer and the SVG parser observe the stream from its first
    byte while the stream handed on to `Convert` replays every byte, so both
    oracles receive the full original contents and `Convert` receives the
    original byte sequence.  The error of the `GetType` call is discarded by
    the Go code (a failed sniff leaves `mimetype` empty, which is simply not
    "svg").  The whole result is `none` when `getSvgRes` panics (aborting
    the call) or when its dimensions are implementation-defined — in both
    cases no outcome is modelled. -/
def ConvertWithAspect (detect : List UInt8 → MimeResult)
    (lookPath : String → Option String)
    (exec : String → List String → List UInt8 → ExecResult)
    (svgParse : List UInt8 → Except String SvgDoc)
    (data : List UInt8) (maxRes : Int) (format : String) :
    Option (List UInt8 × Option String) :=
  if (GetType detect data).1 = "svg" then
    match getSvgRes (svgParse data) with
    | SvgResOut.crash => none
    | SvgResOut.undef => none
    | SvgResOut.err e => some (data, some e)
    | SvgResOut.ok ow oh =>
      let wh := scaleWithAspect ow oh maxRes
      some (Convert detect lookPath exec data wh.1 wh.2 format)
  else some (Convert detect lookPath exec data maxRes maxRes format)

/-- Modelled from the spec: the source repository contains no `computeDpi`
    function (the Go code hardcodes the density value "3072"); this
    definition follows the words of spec §4.4 — baseline 96 when any input
    is non-positive, otherwise `96 * min(dstW / maxRef, dstH / maxRef)` with
    `maxRef = max(srcW, srcH)` and integer division — and exists only to be
    compared against what the code emits. -/
def computeDpiSpec (srcW srcH dstW dstH : Int) : Int :=
  if srcW ≤ 0 ∨ srcH ≤ 0 ∨ dstW ≤ 0 ∨ dstH ≤ 0 then 96
  else 96 * min (dstW / max srcW srcH) (dstH / max srcW srcH)

/-- Detector oracle reporting a PNG image for any stream. -/
def detectPng : List UInt8 → MimeResult := fun _ => ⟨0, "image/png", ".png", none⟩

/-- Detector oracle reporting an SVG image for any stream. -/
def detectSvg : List UInt8 → MimeResult := fun _ => ⟨4, "image/svg+xml", ".svg", none⟩

/-- Detector oracle that fails on any stream. -/
def detectFail : List UInt8 → MimeResult := fun _ => ⟨0, "", "", some ("magic failure")⟩

/-- Path oracle of a host with none of the programs installed. -/
def lookPathNone : String → Option String := fun _ => none

/-- Path oracle of a host with every program installed under /usr/bin. -/
def lookPathAll : String → Option String := fun i => some ("/usr/bin/" ++ i)

/-- Subprocess oracle for a tool that fails: non-zero exit, some output
    bytes produced anyway, diagnostic text on stderr. -/
def execFail : String → List String → List UInt8 → ExecResult :=
  fun _ _ _ => ⟨false, [1, 2, 3], "bad input"⟩

/-- Subprocess oracle for a tool that succeeds (status zero, echoing its
    input) while still writing warnings to stderr. -/
def execNoisy : String → List String → List UInt8 → ExecResult :=
  fun _ _ input => ⟨true, input, "warning: lots of output"⟩

/-- Parser oracle returning a fixed SVG document with declared dimensions
    10 and 20. -/
def svgParseConst : List UInt8 → Except String SvgDoc :=
  fun _ => Except.ok ⟨"10", "20", "0 0 10 20"⟩

/-- One step of the selection loop, phrased through the bundled `toolOk`
    check. -/
theorem getCmdLoop_cons_eq (lookPath : String → Option String) (fi fo : String)
    (w h : Int) (i : String) (rest : List String) :
    getCmdLoop lookPath fi fo w h (i :: rest) =
      if toolOk lookPath fi fo i then
        Except.ok ((lookPath i).getD "", progs fi fo w h i)
      else getCmdLoop lookPath fi fo w h rest := by
  unfold toolOk
  rcases hl : lookPath i with _ | c
  · simp [getCmdLoop, hl]
  · simp only [getCmdLoop, hl, Option.isSome_some, Bool.true_and, Option.getD_some]

/-- The selection loop returns the first list element passing all three
    checks, resolved path and argument list included, and the
    format-pair-naming error when none does. -/
theorem getCmdLoop_eq_find (lookPath : String → Option String) (fi fo : String)
    (w h : Int) (l : List String) :
    getCmdLoop lookPath fi fo w h l =
      match l.find? (toolOk lookPath fi fo) with
      | some i => Except.ok ((lookPath i).getD "", progs fi fo w h i)
      | none => Except.error (noToolMsg fi fo) := by
  induction l with
  | nil => rfl
  | cons i rest ih =>
    rw [getCmdLoop_cons_eq]
    cases hp : toolOk lookPath fi fo i
    · rw [if_neg (by simp [hp]), List.find?_cons_of_neg _ (by simp [hp]), ih]
    · rw [if_pos (by simp [hp]), List.find?_cons_of_pos _ hp]

/-- The final return of `getSvgRes` produces `ok` only with two positive
    dimensions. -/
theorem svgFinal_ok_pos (a b w h : Int) (hw : svgFinal a b = SvgResOut.ok w h) :
    0 < w ∧ 0 < h := by
  unfold svgFinal at hw
  split_ifs at hw with hpos
  · injection hw with h1 h2
    subst h1
    subst h2
    exact hpos

/-- Whatever the parsed document, `getSvgRes` returns `ok` only with two
    positive dimensions. -/
theorem getSvgRes_ok_pos (p : Except String SvgDoc) (w h : Int)
    (hw : getSvgRes p = SvgResOut.ok w h) : 0 < w ∧ 0 < h := by
  rcases p with e | d
  · exact absurd hw (by simp [getSvgRes])
  · simp only [getSvgRes] at hw
    split_ifs at hw with h1 h2
    · rcases hvw : viewBoxW d.ViewBox with _ | w2 <;>
        rcases hvh : viewBoxH d.ViewBox with _ | h2 <;>
        simp only [hvw, hvh] at hw
      · exact SvgResOut.noConfusion hw
      · exact SvgResOut.noConfusion hw
      · exact SvgResOut.noConfusion hw
      · exact svgFinal_ok_pos _ _ _ _ hw
    · exact svgFinal_ok_pos _ _ _ _ hw

/-- C1 (counterexample): at the mixed pair (w, h) = (-1, 5) — which the claim
    says must be rejected with the invalid-dimensions error before any format
    sniffing — `Convert` does not reject: the dimensions guard
    `w == 0 || h == 0 || w < -1 || h < -1` passes, format sniffing runs, and
    the error returned is the sniffer's, not the invalid-dimensions one. -/
theorem convert_mixed_sentinel_not_rejected :
    Convert detectFail lookPathNone execFail [3] (-1) 5 "png" =
      ([3], some ("magic failure"))
    ∧ ("magic failure" : String) ≠ invalidResMsg := by
  exact ⟨rfl, by decide⟩

/-- C1 (amended): `Convert` rejects exactly when `w = 0 ∨ h = 0 ∨ w < -1 ∨
    h < -1`, returning the untouched input stream together with the
    invalid-resolution error; the result on this path is the same for every
    detector, path and subprocess oracle, i.e. it is decided before any
    sniffing or subprocess work.  Mixed pairs such as (-1, 5) fall outside
    this guard and are not rejected. -/
theorem convert_invalid_dims_rejected
    (detect : List UInt8 → MimeResult) (lookPath : String → Option String)
    (exec : String → List String → List UInt8 → ExecResult)
    (data : List UInt8) (w h : Int) (format : String)
    (hd : w = 0 ∨ h = 0 ∨ w < -1 ∨ h < -1) :
    Convert detect lookPath exec data w h format = (data, some invalidResMsg) := by
  simp [Convert, hd]

/-- C1 (witness): the amended rejection theorem at the concrete call
    `Convert` with width 0. -/
theorem convert_invalid_dims_rejected_witness :
    Convert detectPng lookPathAll execFail [4] 0 7 "png" =
      ([4], some invalidResMsg) := by
  exact convert_invalid_dims_rejected detectPng lookPathAll execFail [4] 0 7 "png"
    (by decide)

/-- C2: `getCmd` returns, for the fixed preference list rsvg-convert,
    inkscape, convert, the first candidate whose executable resolves through
    the path oracle and whose input/output capability tables contain the two
    formats, paired with its resolved path and argument list; when no
    candidate passes all three checks it returns the error whose text names
    both formats (`noToolMsg formatIn formatOut` is the concatenation
    "Failed to find a suitable image conversion program on this machine to
    convert " ++ formatIn ++ " to " ++ formatOut). -/
theorem getCmd_first_matching_tool (lookPath : String → Option String)
    (formatIn formatOut : String) (w h : Int) :
    getCmd lookPath formatIn formatOut w h =
      match pref.find? (toolOk lookPath formatIn formatOut) with
      | some i => Except.ok ((lookPath i).getD "", progs formatIn formatOut w h i)
      | none => Except.error (noToolMsg formatIn formatOut) := by
  exact getCmdLoop_eq_find lookPath formatIn formatOut w h pref

/-- C3 (counterexample): a failing `Convert` call whose returned stream is
    not the caller's original input: the subprocess fails (error is
    returned), and the stream handed back is the subprocess's stdout
    [1, 2, 3], not the original [9, 9]. -/
theorem convert_subprocess_failure_stream_not_original :
    Convert detectPng lookPathAll execFail [9, 9] 4 4 "png" =
      ([1, 2, 3], some ("bad input"))
    ∧ ([1, 2, 3] : List UInt8) ≠ [9, 9] := by
  exact ⟨rfl, by decide⟩

/-- C3 (amended): every failure of `Convert` arising before the subprocess
    is launched — invalid dimensions, a sniffing error, or tool-selection
    failure — returns the caller's original byte stream unchanged alongside
    a non-nil error; only a subprocess failure substitutes the subprocess's
    own output for the stream. -/
theorem convert_pre_subprocess_failure_returns_original
    (detect : List UInt8 → MimeResult) (lookPath : String → Option String)
    (exec : String → List String → List UInt8 → ExecResult)
    (data : List UInt8) (w h : Int) (format : String)
    (hfail : (w = 0 ∨ h = 0 ∨ w < -1 ∨ h < -1)
      ∨ (GetType detect data).2 ≠ none
      ∨ (∃ e, getCmd lookPath (GetType detect data).1 format w h = Except.error e)) :
    (Convert detect lookPath exec data w h format).1 = data
    ∧ (Convert detect lookPath exec data w h format).2 ≠ none := by
  by_cases hd : w = 0 ∨ h = 0 ∨ w < -1 ∨ h < -1
  · simp [Convert, hd]
  · rcases hT : (GetType detect data).2 with _ | e
    · rcases hfail with h1 | h2 | ⟨e, he⟩
      · exact absurd h1 hd
      · exact absurd hT h2
      · simp [Convert, hd, hT, he, teeReconstruct]
    · simp [Convert, hd, hT, teeReconstruct]

/-- C3 (witness): the amended theorem at a concrete sniffing failure. -/
theorem convert_pre_subprocess_failure_returns_original_witness :
    (Convert detectFail lookPathNone execFail [5] 4 4 "png").1 = [5]
    ∧ (Convert detectFail lookPathNone execFail [5] 4 4 "png").2 ≠ none := by
  exact convert_pre_subprocess_failure_returns_original detectFail lookPathNone
    execFail [5] 4 4 "png" (Or.inr (Or.inl (by decide)))

/-- C4 (counterexample): a subprocess that exits with status zero while
    writing a non-empty diagnostic to stderr yields no error from `Convert`
    — refuting the claim that a non-empty captured stderr alone makes the
    returned error non-nil. -/
theorem convert_noisy_stderr_zero_exit_no_error :
    Convert detectPng lookPathAll execNoisy [7] 4 4 "png" = ([7], none)
    ∧ (execNoisy "/usr/bin/convert" (progs "png" "png" 4 4 "convert") [7]).stderr ≠ "" := by
  exact ⟨rfl, by decide⟩

/-- C4 (amended): once the pipeline reaches the subprocess (valid dimensions,
    sniffing succeeded, a tool was selected), `Convert` returns the
    subprocess's stdout bytes as the result stream in every case, and the
    error is non-nil exactly when the subprocess's `exitOk` is false
    (non-zero exit or launch failure) — the stderr contents alone never
    trigger an error — and in that case the error message is verbatim the
    captured stderr text. -/
theorem convert_subprocess_error_iff_exit_failure
    (detect : List UInt8 → MimeResult) (lookPath : String → Option String)
    (exec : String → List String → List UInt8 → ExecResult)
    (data : List UInt8) (w h : Int) (format cmd : String) (args : List String)
    (hd : ¬(w = 0 ∨ h = 0 ∨ w < -1 ∨ h < -1))
    (hT : (GetType detect data).2 = none)
    (hC : getCmd lookPath (GetType detect data).1 format w h = Except.ok (cmd, args)) :
    Convert detect lookPath exec data w h format =
      ((exec cmd args data).stdout,
        if (exec cmd args data).exitOk then none
        else some ((exec cmd args data).stderr)) := by
  simp [Convert, hd, hT, hC, teeReconstruct]

/-- C4 (witness): the amended theorem at a concrete failing subprocess: the
    diagnostic text "bad input" becomes the error message verbatim and the
    produced output bytes are still returned. -/
theorem convert_subprocess_error_iff_exit_failure_witness :
    Convert detectPng lookPathAll execFail [9] 4 4 "png" =
      ([1, 2, 3], some ("bad input")) := by
  have h := convert_subprocess_error_iff_exit_failure detectPng lookPathAll execFail
    [9] 4 4 "png" ("/usr/bin/convert") (progs "png" "png" 4 4 "convert")
    (by decide) (by rfl) (by rfl)
  rw [h]
  rfl

/-- Rounding helper: the toward-zero truncation of an integer is itself. -/
theorem truncF_intCast (n : Int) : truncF (n : ℚ) = n := by
  unfold truncF
  split_ifs
  · exact Int.floor_intCast n
  · exact Int.ceil_intCast n

/-- Round-to-nearest-even fixes integers. -/
theorem rne_intCast (n : Int) : rne (n : ℚ) = n := by
  unfold rne
  rw [Int.floor_intCast]
  norm_num

/-- Round-to-nearest-even is bounded below by the floor. -/
theorem floor_le_rne (q : ℚ) : ⌊q⌋ ≤ rne q := by
  unfold rne
  split_ifs <;> omega

/-- Round-to-nearest-even is bounded above by the floor plus one. -/
theorem rne_le_floor_add_one (q : ℚ) : rne q ≤ ⌊q⌋ + 1 := by
  unfold rne
  split_ifs <;> omega

/-- Round-to-nearest-even is monotone. -/
theorem rne_mono {a b : ℚ} (h : a ≤ b) : rne a ≤ rne b := by
  rcases lt_or_eq_of_le (Int.floor_mono h) with hf | hf
  · calc rne a ≤ ⌊a⌋ + 1 := rne_le_floor_add_one a
      _ ≤ ⌊b⌋ := by omega
      _ ≤ rne b := floor_le_rne b
  · unfold rne
    rw [hf]
    have hab : a - ⌊b⌋ ≤ b - ⌊b⌋ := by linarith
    split_ifs <;> first
      | omega
      | linarith

/-- Characterization of the binary logarithm by its power bounds. -/
theorem log2_eq_of {r : ℚ} {e : Int} (hr : 0 < r) (h1 : (2 : ℚ) ^ e ≤ r)
    (h2 : r < (2 : ℚ) ^ (e + 1)) : Int.log 2 r = e := by
  have hb : (1 : ℕ) < 2 := by norm_num
  have hle : e ≤ Int.log 2 r := by
    have := (Int.zpow_le_iff_le_log hb hr (x := e)).1
    apply this
    exact_mod_cast h1
  have hlt : Int.log 2 r < e + 1 := by
    have := (Int.lt_zpow_iff_log_lt hb hr (x := e + 1)).1
    apply this
    exact_mod_cast h2
  omega

/-- Unfolding of `roundF32` on a positive argument. -/
theorem roundF32_of_pos {a : ℚ} (ha : 0 < a) :
    roundF32 a =
      (rne (a / 2 ^ max (Int.log 2 a - 23) (-149)) : ℚ) *
        2 ^ max (Int.log 2 a - 23) (-149) := by
  unfold roundF32
  rw [if_neg ha.ne', abs_of_pos ha, if_neg (not_lt.2 ha.le)]
  ring

/-- Exactness of float32 rounding on dyadic rationals with a significand of
    at most 24 bits and an exponent at or above the subnormal scale — every
    such value is a float32, so rounding fixes it. -/
theorem roundF32_dyadic (k e : Int) (hk : 0 < k) (hk2 : k < 2 ^ 24)
    (he : -149 ≤ e) : roundF32 ((k : ℚ) * 2 ^ e) = (k : ℚ) * 2 ^ e := by
  have hkq : (0 : ℚ) < (k : ℚ) := by exact_mod_cast hk
  have h2e : (0 : ℚ) < (2 : ℚ) ^ e := zpow_pos (by norm_num) e
  have ha : (0 : ℚ) < (k : ℚ) * 2 ^ e := mul_pos hkq h2e
  set L := Int.log 2 ((k : ℚ)) with hL
  have hLb : (2 : ℚ) ^ L ≤ (k : ℚ) := Int.zpow_log_le_self (by norm_num) hkq
  have hLt : (k : ℚ) < (2 : ℚ) ^ (L + 1) := Int.lt_zpow_succ_log_self (by norm_num) _
  have hlog : Int.log 2 ((k : ℚ) * 2 ^ e) = L + e := by
    apply log2_eq_of ha
    · rw [zpow_add₀ (by norm_num : (2 : ℚ) ≠ 0)]
      exact mul_le_mul_of_nonneg_right hLb h2e.le
    · have : L + e + 1 = (L + 1) + e := by ring
      rw [this, zpow_add₀ (by norm_num : (2 : ℚ) ≠ 0)]
      exact mul_lt_mul_of_pos_right hLt h2e
  have hL23 : L ≤ 23 := by
    by_contra hc
    push_neg at hc
    have h1 : (2 : ℚ) ^ (24 : Int) ≤ (2 : ℚ) ^ L :=
      zpow_le_zpow_right₀ (by norm_num) (by omega)
    have h2 : ((2 : ℚ) ^ (24 : Int)) = ((2 ^ 24 : Int) : ℚ) := by norm_num
    have : (2 ^ 24 : Int) ≤ k := by
      have := le_trans h1 hLb
      rw [h2] at this
      exact_mod_cast this
    omega
  set E : Int := max (Int.log 2 ((k : ℚ) * 2 ^ e) - 23) (-149) with hE
  have hEe : E ≤ e := by
    rw [hE, hlog]
    apply max_le (by omega) he
  obtain ⟨n, hn⟩ : ∃ n : ℕ, e - E = (n : Int) :=
    ⟨(e - E).toNat, (Int.toNat_of_nonneg (by omega)).symm⟩
  have hsplit : (k : ℚ) * 2 ^ e / 2 ^ E = ((k * 2 ^ n : Int) : ℚ) := by
    rw [div_eq_iff (zpow_pos (by norm_num : (0 : ℚ) < 2) E).ne']
    push_cast
    rw [mul_assoc, ← zpow_natCast (2 : ℚ) n, ← zpow_add₀ (by norm_num : (2 : ℚ) ≠ 0), ← hn]
    ring_nf
  rw [roundF32_of_pos ha, ← hE, hsplit, rne_intCast]
  push_cast
  rw [mul_assoc, ← zpow_natCast (2 : ℚ) n, ← zpow_add₀ (by norm_num : (2 : ℚ) ≠ 0), ← hn]
  ring_nf

/-- Exactness of float32 rounding on integers below 2^24. -/
theorem roundF32_intCast (n : Int) (h0 : 0 < n) (h24 : n < 2 ^ 24) :
    roundF32 ((n : ℚ)) = (n : ℚ) := by
  have := roundF32_dyadic n 0 h0 h24 (by norm_num)
  simpa using this

/-- Float32 rounding fixes one. -/
theorem roundF32_one : roundF32 (1 : ℚ) = 1 := by
  have := roundF32_intCast 1 (by norm_num) (by norm_num)
  simpa using this

/-- Float32 rounding is monotone on positive arguments. -/
theorem roundF32_mono {a b : ℚ} (ha : 0 < a) (hab : a ≤ b) :
    roundF32 a ≤ roundF32 b := by
  have hb : 0 < b := lt_of_lt_of_le ha hab
  have h2 : (0 : ℚ) < 2 := by norm_num
  have hLab : Int.log 2 a ≤ Int.log 2 b := Int.log_mono_right ha hab
  set La := Int.log 2 a with hLa
  set Lb := Int.log 2 b with hLb
  set Ea : Int := max (La - 23) (-149) with hEa
  set Eb : Int := max (Lb - 23) (-149) with hEb
  have hEab : Ea ≤ Eb := max_le_max (by omega) le_rfl
  rcases eq_or_lt_of_le hEab with hE | hE
  · rw [roundF32_of_pos ha, roundF32_of_pos hb, ← hEa, ← hEb, ← hE]
    have hd : a / 2 ^ Ea ≤ b / 2 ^ Ea := by gcongr
    have := rne_mono hd
    have hc : (rne (a / 2 ^ Ea) : ℚ) ≤ (rne (b / 2 ^ Ea) : ℚ) := by exact_mod_cast this
    exact mul_le_mul_of_nonneg_right hc (zpow_pos h2 _).le
  · have hEbL : Eb = Lb - 23 := by
      rcases max_choice (Lb - 23) (-149) with hc | hc
      · exact hc
      · have := le_max_right (La - 23) (-149)
        omega
    have hupA : roundF32 a ≤ (2 : ℚ) ^ (Ea + 24) := by
      rw [roundF32_of_pos ha, ← hEa]
      have hdiv : a / 2 ^ Ea < (2 : ℚ) ^ (24 : Int) := by
        have h1 : a < (2 : ℚ) ^ (La + 1) := Int.lt_zpow_succ_log_self (by norm_num) a
        have h2p : (2 : ℚ) ^ (La + 1) / 2 ^ Ea ≤ (2 : ℚ) ^ (24 : Int) := by
          rw [div_le_iff₀ (zpow_pos h2 _), ← zpow_add₀ (ne_of_gt h2)]
          apply zpow_le_zpow_right₀ (by norm_num)
          have := le_max_left (La - 23) (-149)
          omega
        calc a / 2 ^ Ea < (2 : ℚ) ^ (La + 1) / 2 ^ Ea := by gcongr
          _ ≤ _ := h2p
      have hfl : ⌊a / 2 ^ Ea⌋ < 2 ^ 24 := by
        rw [Int.floor_lt]
        calc a / 2 ^ Ea < (2 : ℚ) ^ (24 : Int) := hdiv
          _ = ((2 ^ 24 : Int) : ℚ) := by push_cast ; norm_num
      have hrne : rne (a / 2 ^ Ea) ≤ 2 ^ 24 := by
        have := rne_le_floor_add_one (a / 2 ^ Ea)
        omega
      have hc : (rne (a / 2 ^ Ea) : ℚ) ≤ (2 : ℚ) ^ (24 : Int) := by
        calc (rne (a / 2 ^ Ea) : ℚ) ≤ ((2 ^ 24 : Int) : ℚ) := by exact_mod_cast hrne
          _ = (2 : ℚ) ^ (24 : Int) := by push_cast ; norm_num
      calc (rne (a / 2 ^ Ea) : ℚ) * 2 ^ Ea ≤ (2 : ℚ) ^ (24 : Int) * 2 ^ Ea :=
            mul_le_mul_of_nonneg_right hc (zpow_pos h2 _).le
        _ = (2 : ℚ) ^ (Ea + 24) := by
            rw [← zpow_add₀ (ne_of_gt h2)]
            ring_nf
    have hlowB : (2 : ℚ) ^ Lb ≤ roundF32 b := by
      rw [roundF32_of_pos hb, ← hEb]
      have hdiv : (2 : ℚ) ^ (23 : Int) ≤ b / 2 ^ Eb := by
        rw [le_div_iff₀ (zpow_pos h2 _), ← zpow_add₀ (ne_of_gt h2)]
        have he : (23 : Int) + Eb = Lb := by omega
        rw [he]
        exact Int.zpow_log_le_self (by norm_num) hb
      have hfl : (2 ^ 23 : Int) ≤ ⌊b / 2 ^ Eb⌋ := by
        rw [Int.le_floor]
        calc ((2 ^ 23 : Int) : ℚ) = (2 : ℚ) ^ (23 : Int) := by push_cast ; norm_num
          _ ≤ b / 2 ^ Eb := hdiv
      have hrne : (2 ^ 23 : Int) ≤ rne (b / 2 ^ Eb) := by
        have := floor_le_rne (b / 2 ^ Eb)
        omega
      have hc : (2 : ℚ) ^ (23 : Int) ≤ (rne (b / 2 ^ Eb) : ℚ) := by
        calc (2 : ℚ) ^ (23 : Int) = ((2 ^ 23 : Int) : ℚ) := by push_cast ; norm_num
          _ ≤ _ := by exact_mod_cast hrne
      calc (2 : ℚ) ^ Lb = (2 : ℚ) ^ (23 : Int) * 2 ^ Eb := by
            rw [← zpow_add₀ (ne_of_gt h2)]
            congr 1
            omega
        _ ≤ (rne (b / 2 ^ Eb) : ℚ) * 2 ^ Eb :=
            mul_le_mul_of_nonneg_right hc (zpow_pos h2 _).le
    have hmid : (2 : ℚ) ^ (Ea + 24) ≤ (2 : ℚ) ^ Lb :=
      zpow_le_zpow_right₀ (by norm_num) (by omega)
    linarith

/-- Float32 rounding maps values at least one to values at least one. -/
theorem one_le_roundF32 {a : ℚ} (ha : 1 ≤ a) : 1 ≤ roundF32 a := by
  have := roundF32_mono (by norm_num : (0 : ℚ) < 1) ha
  rw [roundF32_one] at this
  exact this

/-- Cast helper: a positive integer is positive in the rationals. -/
theorem cast_pos_of_int {n : Int} (hn : 0 < n) : (0 : ℚ) < (n : ℚ) := by exact_mod_cast hn

/-- Cast helper: a positive integer is at least one in the rationals. -/
theorem one_le_cast_of_int {n : Int} (hn : 0 < n) : (1 : ℚ) ≤ (n : ℚ) := by exact_mod_cast hn

/-- Go's float32 rounds 2^25 - 1 up to 2^25 (the significand no longer fits
    in 24 bits and the tie goes to the even neighbour), the collapse the
    concrete theorems below exercise. -/
theorem roundF32_collapse : roundF32 ((33554431 : ℚ)) = 33554432 := by
  have hlog : Int.log 2 ((33554431 : ℚ)) = 24 := by
    apply log2_eq_of (by norm_num)
    · norm_num
    · norm_num
  rw [roundF32_of_pos (by norm_num), hlog]
  have hmax : max ((24 : Int) - 23) (-149) = 1 := by decide
  rw [hmax]
  have hdiv : ((33554431 : ℚ)) / 2 ^ (1 : Int) = 33554431 / 2 := by norm_num
  rw [hdiv]
  have hrne : rne ((33554431 : ℚ) / 2) = 16777216 := by
    unfold rne
    have hfl : ⌊(33554431 : ℚ) / 2⌋ = 16777215 := by
      rw [Int.floor_eq_iff]
      norm_num
    rw [hfl]
    norm_num
  rw [hrne]
  norm_num

/-- C5 (amended): over the float32 semantics of the code, the scaler always
    places maxRes exactly on one component; whenever the height does not
    exceed the width, maxRes lands on the width component (so the branch
    computing a truncated width is taken only when the width is genuinely
    smaller); for equal source axes and a float32-exact maxRes (below 2^24)
    both components equal maxRes — not exactly one; and the spec example
    holds: scaleWithAspect(10, 5, 512) = (512, 256).  The clean exact-ratio
    characterization of the original claim cannot be recovered: float32
    rounding of the two ratios can collapse them (see the counterexample), so
    which component is truncated, and to what, depends on the rounded values
    rather than on w/h and h/w themselves. -/
theorem scaleWithAspect_behavior (w h m : Int) (hw : 0 < w) (hh : 0 < h) (hm : 0 < m) :
    ((scaleWithAspect w h m).1 = m ∨ (scaleWithAspect w h m).2 = m)
    ∧ (h ≤ w → (scaleWithAspect w h m).1 = m)
    ∧ (w = h → m < 2 ^ 24 → scaleWithAspect w h m = (m, m))
    ∧ scaleWithAspect 10 5 512 = (512, 256) := by
  refine ⟨?_, ?_, ?_, ?_⟩
  · simp only [scaleWithAspect]
    split_ifs
    · exact Or.inr rfl
    · exact Or.inl rfl
  · intro hhw
    have hfh1 : 1 ≤ roundF32 ((h : ℚ)) := one_le_roundF32 (one_le_cast_of_int hh)
    have hcast : (h : ℚ) ≤ (w : ℚ) := by exact_mod_cast hhw
    have hfhw : roundF32 ((h : ℚ)) ≤ roundF32 ((w : ℚ)) :=
      roundF32_mono (cast_pos_of_int hh) hcast
    have hfh0 : (0 : ℚ) < roundF32 ((h : ℚ)) := by linarith
    have hfw0 : (0 : ℚ) < roundF32 ((w : ℚ)) := by linarith
    have hr1 : roundF32 ((h : ℚ)) / roundF32 ((w : ℚ)) ≤ 1 := (div_le_one hfw0).2 hfhw
    have hr2 : (1 : ℚ) ≤ roundF32 ((w : ℚ)) / roundF32 ((h : ℚ)) := (one_le_div hfh0).2 hfhw
    have hmono :
        roundF32 (roundF32 ((h : ℚ)) / roundF32 ((w : ℚ))) ≤
          roundF32 (roundF32 ((w : ℚ)) / roundF32 ((h : ℚ))) :=
      roundF32_mono (div_pos hfh0 hfw0) (le_trans hr1 hr2)
    simp only [scaleWithAspect]
    rw [if_neg (not_lt.2 hmono)]
  · intro he hm24
    subst he
    have hfh0 : (0 : ℚ) < roundF32 ((w : ℚ)) := by
      have := one_le_roundF32 (one_le_cast_of_int hw)
      linarith
    simp only [scaleWithAspect]
    rw [div_self hfh0.ne', roundF32_one, if_neg (lt_irrefl (1 : ℚ)), mul_one,
      roundF32_intCast m hm hm24, roundF32_intCast m hm hm24, truncF_intCast]
  · have e10 : roundF32 (((10 : Int) : ℚ)) = ((10 : Int) : ℚ) :=
      roundF32_intCast 10 (by norm_num) (by norm_num)
    have e5 : roundF32 (((5 : Int) : ℚ)) = ((5 : Int) : ℚ) :=
      roundF32_intCast 5 (by norm_num) (by norm_num)
    have e512 : roundF32 (((512 : Int) : ℚ)) = ((512 : Int) : ℚ) :=
      roundF32_intCast 512 (by norm_num) (by norm_num)
    have ediv1 : ((10 : Int) : ℚ) / ((5 : Int) : ℚ) = ((2 : Int) : ℚ) := by norm_num
    have ediv2 : ((5 : Int) : ℚ) / ((10 : Int) : ℚ) =
        ((1 : Int) : ℚ) * (2 : ℚ) ^ (-1 : Int) := by norm_num
    have e2 : roundF32 (((2 : Int) : ℚ)) = ((2 : Int) : ℚ) :=
      roundF32_intCast 2 (by norm_num) (by norm_num)
    have ehalf : roundF32 (((1 : Int) : ℚ) * (2 : ℚ) ^ (-1 : Int)) =
        ((1 : Int) : ℚ) * (2 : ℚ) ^ (-1 : Int) :=
      roundF32_dyadic 1 (-1) (by norm_num) (by norm_num) (by norm_num)
    have emul : ((512 : Int) : ℚ) * (((1 : Int) : ℚ) * (2 : ℚ) ^ (-1 : Int)) =
        ((256 : Int) : ℚ) := by norm_num
    have e256 : roundF32 (((256 : Int) : ℚ)) = ((256 : Int) : ℚ) :=
      roundF32_intCast 256 (by norm_num) (by norm_num)
    simp only [scaleWithAspect]
    rw [e10, e5, e512, ediv1, ediv2, e2, ehalf]
    rw [if_neg (by norm_num)]
    rw [emul, e256, truncF_intCast]

/-- C5 (counterexample): two refutations of "exactly one component equals
    maxDimension, the other maxDimension * min(w/h, h/w) truncated".  For
    the square source (5, 5) with maxDimension 512 both returned components
    equal 512.  And for width 2^25 - 1, height 2^25 — a strictly smaller
    width — float32 rounds the width up to 2^25, both ratios collapse to
    exactly 1, and the result is (512, 512) where the claimed formula gives
    (511, 512): the program, like the model, computes in float32, not in
    exact rationals. -/
theorem scaleWithAspect_square_both_max :
    ((scaleWithAspect 5 5 512).1 = 512 ∧ (scaleWithAspect 5 5 512).2 = 512)
    ∧ scaleWithAspect (2 ^ 25 - 1) (2 ^ 25) 512 = (512, 512) := by
  constructor
  · have e5 : roundF32 (((5 : Int) : ℚ)) = ((5 : Int) : ℚ) :=
      roundF32_intCast 5 (by norm_num) (by norm_num)
    have e512 : roundF32 (((512 : Int) : ℚ)) = ((512 : Int) : ℚ) :=
      roundF32_intCast 512 (by norm_num) (by norm_num)
    have h5 : ((5 : Int) : ℚ) ≠ 0 := by norm_num
    simp only [scaleWithAspect]
    rw [e5, e512, div_self h5, roundF32_one, if_neg (lt_irrefl (1 : ℚ)), mul_one, e512,
      truncF_intCast]
    exact ⟨rfl, rfl⟩
  · have ecast : (((2 ^ 25 - 1 : Int)) : ℚ) = (33554431 : ℚ) := by norm_num
    have ecast2 : (((2 ^ 25 : Int)) : ℚ) = ((2 ^ 23 : Int) : ℚ) * (2 : ℚ) ^ (2 : Int) := by
      push_cast
      norm_num
    have efh : roundF32 (((2 ^ 23 : Int) : ℚ) * (2 : ℚ) ^ (2 : Int)) =
        ((2 ^ 23 : Int) : ℚ) * (2 : ℚ) ^ (2 : Int) :=
      roundF32_dyadic (2 ^ 23) 2 (by norm_num) (by norm_num) (by norm_num)
    have e512 : roundF32 (((512 : Int) : ℚ)) = ((512 : Int) : ℚ) :=
      roundF32_intCast 512 (by norm_num) (by norm_num)
    have eval2 : ((2 ^ 23 : Int) : ℚ) * (2 : ℚ) ^ (2 : Int) = (33554432 : ℚ) := by
      push_cast
      norm_num
    have hdivs : (33554432 : ℚ) / (33554432 : ℚ) = 1 := by norm_num
    simp only [scaleWithAspect]
    rw [ecast, ecast2, roundF32_collapse, efh, e512, eval2, hdivs, roundF32_one,
      if_neg (lt_irrefl (1 : ℚ)), mul_one, e512, truncF_intCast]

/-- C5 (witness): the amended theorem applied at the spec example input
    (10, 5, 512), all hypotheses discharged there. -/
theorem scaleWithAspect_behavior_witness :
    scaleWithAspect 10 5 512 = (512, 256) :=
  (scaleWithAspect_behavior 10 5 512 (by norm_num) (by norm_num) (by norm_num)).2.2.2


/-- C6 (counterexample): for target (512, 256) the argument list built for
    "convert" from an svg input carries the density value "3072", yet the
    claim's formula (spec-modelled `computeDpiSpec`) requires 96*min(512/16,
    256/16) = 1536 for a 16x16 source — a value the code cannot produce, since
    `getCmd` never receives source dimensions and hardcodes "3072". -/
theorem density_constant_not_formula :
    progs "svg" "png" 512 256 "convert" =
      ["-density", "3072", "-background", "none", "-resize", "512x256", "-", "png:-"]
    ∧ computeDpiSpec 16 16 512 256 = 1536
    ∧ (3072 : Int) ≠ 1536 := by
  exact ⟨rfl, by decide, by decide⟩

/-- C6 (amended): the density flag the raster-toolkit candidate receives is
    the fixed pair "-density" "3072", inserted ahead of the resize flag
    exactly when the input format is "svg" and both target dimensions are
    positive, and omitted entirely otherwise (letting the tool's baseline
    default of 96 apply); the constant 3072 coincides with the spec formula's
    value only at the reference point source 16x16, target 512x512. -/
theorem density_flag_behavior (fi fo : String) (w h : Int) :
    (fi = "svg" → 0 < w → 0 < h →
      progs fi fo w h "convert" =
        ["-density", "3072", "-background", "none", "-resize", resStr w h, "-", fo ++ ":-"])
    ∧ (¬(fi = "svg" ∧ 0 < w ∧ 0 < h) →
      progs fi fo w h "convert" =
        ["-background", "none", "-resize", resStr w h, "-", fo ++ ":-"])
    ∧ computeDpiSpec 16 16 512 512 = 3072 := by
  refine ⟨?_, ?_, by decide⟩
  · intro h1 h2 h3
    simp [progs, h1, h2, h3]
  · intro hneg
    simp only [progs, if_pos rfl]
    rw [if_neg hneg]
    simp

/-- C6 (witness): the amended theorem at formatIn "svg", formatOut "png",
    target 512x512. -/
theorem density_flag_behavior_witness :
    progs "svg" "png" 512 512 "convert" =
      ["-density", "3072", "-background", "none", "-resize", resStr 512 512, "-", "png" ++ ":-"] := by
  exact (density_flag_behavior "svg" "png" 512 512).1 rfl (by decide) (by decide)

/-- C7 (amended): the metrics reader propagates a parser failure as its
    error; returns the declared width/height (read with Go's clamping Atoi)
    whenever both are positive; and when either declared dimension is absent
    or non-positive *and* the view-box splits into at least four
    space-separated fields *and* both float32 differences max-x - min-x and
    max-y - min-y convert to in-range 64-bit ints, falls back to exactly
    those converted differences (handling a non-zero or negative origin),
    returning them when both are positive and the size-information error
    otherwise.  The four-field proviso is forced by the counterexample (with
    fewer fields the code panics), and the conversion proviso excludes the
    cases the Go specification leaves implementation-defined (a non-finite
    or out-of-int64-range float32). -/
theorem getSvgRes_metrics_behavior (e : String) (d : SvgDoc) :
    getSvgRes (Except.error e) = SvgResOut.err e
    ∧ (1 ≤ atoi d.Width → 1 ≤ atoi d.Height →
        getSvgRes (Except.ok d) = SvgResOut.ok (atoi d.Width) (atoi d.Height))
    ∧ (∀ vw vh : Int, (atoi d.Width < 1 ∨ atoi d.Height < 1) →
        4 ≤ (splitSpace d.ViewBox).length →
        viewBoxW d.ViewBox = some vw → viewBoxH d.ViewBox = some vh →
        getSvgRes (Except.ok d) =
          if 0 < vw ∧ 0 < vh then SvgResOut.ok vw vh
          else SvgResOut.err svgSizeMsg) := by
  refine ⟨rfl, ?_, ?_⟩
  · intro h1 h2
    simp only [getSvgRes]
    rw [if_neg (by omega)]
    unfold svgFinal
    rw [if_pos ⟨by omega, by omega⟩]
  · intro vw vh h1 h2 hvw hvh
    simp only [getSvgRes]
    rw [if_pos h1, if_pos h2, hvw, hvh]
    rfl

/-- C7 (witness): the amended theorem at a document with declared dimensions
    17 and 9. -/
theorem getSvgRes_metrics_behavior_witness :
    getSvgRes (Except.ok ⟨"17", "9", "vb"⟩) = SvgResOut.ok 17 9 := by
  have h := (getSvgRes_metrics_behavior "x" ⟨"17", "9", "vb"⟩).2.1 (by decide) (by decide)
  rw [h]
  decide

/-- C7 (counterexample): a parseable document with no usable declared
    dimensions and the two-field view-box "0 0" makes `getSvgRes` panic
    (out-of-range index into the split view-box) instead of returning the
    MetricsUnavailableError the claim requires for every parseable document
    without positive dimensions. -/
theorem getSvgRes_short_viewbox_crashes :
    getSvgRes (Except.ok ⟨"", "", "0 0"⟩) = SvgResOut.crash
    ∧ SvgResOut.crash ≠ SvgResOut.err svgSizeMsg := by
  exact ⟨by decide, by decide⟩

/-- C8: the tee/multi-reader duplication in `Convert` is lossless — whatever
    prefix of the teed copy the sniffer consumes (any k), the sniffer saw a
    prefix of the original bytes, and the reconstructed stream fed to the
    subprocess is exactly the original byte sequence, nothing lost,
    duplicated or reordered. -/
theorem teeReconstruct_lossless (data : List UInt8) (k : Nat) :
    data.take k <+: data ∧ teeReconstruct data k = data := by
  exact ⟨List.take_prefix k data, List.take_append_drop k data⟩

/-- C9: in `ConvertWithAspect`, the aspect scaler runs only on the vector
    path after the metrics reader returned `ok`, and `getSvgRes` returns
    `ok` only with both dimensions strictly positive; under exactly those
    conditions the call reduces to `Convert` applied to the scaler's output,
    so `scaleWithAspect` is never invoked with a zero source dimension and
    its divisions are never by zero. -/
theorem scaler_args_positive
    (detect : List UInt8 → MimeResult) (lookPath : String → Option String)
    (exec : String → List String → List UInt8 → ExecResult)
    (svgParse : List UInt8 → Except String SvgDoc)
    (data : List UInt8) (maxRes : Int) (format : String) (ow oh : Int)
    (hmt : (GetType detect data).1 = "svg")
    (hok : getSvgRes (svgParse data) = SvgResOut.ok ow oh) :
    0 < ow ∧ 0 < oh
    ∧ ConvertWithAspect detect lookPath exec svgParse data maxRes format =
        some (Convert detect lookPath exec data (scaleWithAspect ow oh maxRes).1
          (scaleWithAspect ow oh maxRes).2 format) := by
  obtain ⟨h1, h2⟩ := getSvgRes_ok_pos _ _ _ hok
  refine ⟨h1, h2, ?_⟩
  unfold ConvertWithAspect
  rw [if_pos hmt, hok]

/-- C9 (witness): the theorem at a concrete svg stream whose parsed document
    declares dimensions 10 and 20. -/
theorem scaler_args_positive_witness :
    (0 : Int) < 10 ∧ (0 : Int) < 20 ∧
      ConvertWithAspect detectSvg lookPathNone execFail svgParseConst [1] 512 "png" =
        some (Convert detectSvg lookPathNone execFail [1] (scaleWithAspect 10 20 512).1
          (scaleWithAspect 10 20 512).2 "png") := by
  exact scaler_args_positive detectSvg lookPathNone execFail svgParseConst [1] 512 "png"
    10 20 (by rfl) (by rfl)

/-- C10: a parseable vector document with no declared width/height and an
    empty viewBox string makes `getSvgRes` abort: splitting "" on spaces
    yields the single field [""], so the accesses res[1], res[2], res[3] are
    out of range and the Go code panics rather than returning an error. -/
theorem getSvgRes_empty_viewbox_crash :
    getSvgRes (Except.ok ⟨"", "", ""⟩) = SvgResOut.crash := by
  decide
